import Mathlib

/-!
Verification development for the adbc-drivers dev tooling.

This file embeds, as Lean definitions, the configuration-validation and
projection logic of the repository:

* `generate.py` — the pydantic `GenerateConfig` model: secret projection per
  workflow context, the synthetic `all` context, cloud-auth synthetic secrets,
  the `GITHUB_TOKEN` filter, the permissions map, and the `lang` shorthand
  validation.
* `workflow.py` — the legacy `Params.__init__` validator (pop-based schema
  checking, three base contexts).
* `make.py` — `detect_version`, with the git subprocess observations modelled
  as an explicit repository-state record.
* `package.py` — `normalize_driver_name`.

Python `dict`s are modelled as association lists with insertion-order
semantics: assignment replaces the value of an existing key in place and
appends new keys at the end, exactly as CPython dicts behave.
-/

namespace AdbcDriversDev

/-- A Python `dict[str, str]` with insertion order, as an association list. -/
abbrev SecretMap := List (String × String)

/-- The keys of an association list, in order. -/
def keysOf (m : SecretMap) : List String := m.map Prod.fst

/-- Python `d[k] = v`: replace the value in place if the key exists,
otherwise append the new pair at the end. -/
def dictSet : SecretMap → String → String → SecretMap
  | [], k, v => [(k, v)]
  | (k0, v0) :: rest, k, v =>
    if k0 = k then (k, v) :: rest else (k0, v0) :: dictSet rest k v

/-- Python `d.get(k)`: the value at the first (unique) occurrence of `k`. -/
def dictGet : SecretMap → String → Option String
  | [], _ => none
  | (k0, v0) :: rest, k => if k0 = k then some v0 else dictGet rest k

/-- Python `d.update(d2)`: assign every pair of `d2` into `d`, in order. -/
def dictUpdate (m m2 : SecretMap) : SecretMap :=
  m2.foldl (fun acc kv => dictSet acc kv.1 kv.2) m

/-- A dynamically-typed TOML value as produced by `tomlkit.load(...).unwrap()`. -/
inductive Value where
  | str (s : String)
  | bool (b : Bool)
  | int (n : Int)
  | dict (fields : List (String × Value))
  | list (items : List Value)
  | null

/-- The workflow contexts of `generate.py` (`WorkflowContext` literal type). -/
inductive WorkflowContext where
  | buildTest
  | buildRelease
  | test
  | validate
  deriving DecidableEq, Repr

/-- `WORKFLOW_CONTEXTS`, in declaration order. -/
def WORKFLOW_CONTEXTS : List WorkflowContext :=
  [.buildTest, .buildRelease, .test, .validate]

/-- The string key under which each context is stored in `_processed_secrets`. -/
def WorkflowContext.key : WorkflowContext → String
  | .buildTest => "build:test"
  | .buildRelease => "build:release"
  | .test => "test"
  | .validate => "validate"

/-- `SecretConfigDict` from `generate.py`: explicit secret name and contexts.
The `contexts` field defaults to all of `WORKFLOW_CONTEXTS` when omitted;
pydantic rejects context names outside the enum, which the `WorkflowContext`
type enforces here. -/
structure SecretConfigDict where
  secret : String
  contexts : List WorkflowContext := WORKFLOW_CONTEXTS
  deriving DecidableEq, Repr

/-- A validated secrets entry: bare string shorthand or explicit dict form. -/
inductive SecretSpec where
  | str (s : String)
  | dict (d : SecretConfigDict)
  deriving DecidableEq, Repr

/-- `AwsConfig` from `generate.py`. -/
structure AwsConfig where
  region : String
  deriving DecidableEq, Repr

/-- `LangBuildConfig` from `generate.py`. -/
structure LangBuildConfig where
  additional_make_args : List String := []
  lang_tools : List String := []
  deriving DecidableEq, Repr

/-- `LangConfig` from `generate.py`. -/
structure LangConfig where
  build : LangBuildConfig := {}
  skip_validate : Bool := false
  deriving DecidableEq, Repr

/-- A validated `GenerateConfig` (the pydantic model of `generate.py`), after
field validation but before the `process_secrets_and_permissions` model
validator runs.  `secrets` and `lang` keep their (unique-key) insertion
order, as Python dicts do. -/
structure GenerateConfig where
  driver : String := "(unknown)"
  environment : Option String := none
  private_ : Bool := false
  lang : List (String × Option LangConfig) := []
  secrets : List (String × SecretSpec) := []
  aws : Option AwsConfig := none
  gcloud : Bool := false
  validation : List (String × Value) := []

/-- The four per-context secret maps built by the first half of
`process_secrets_and_permissions`. -/
structure ProcessedSecrets where
  buildTest : SecretMap
  buildRelease : SecretMap
  test : SecretMap
  validate : SecretMap

/-- The component of `ProcessedSecrets` for a given context. -/
def getCtx (p : ProcessedSecrets) : WorkflowContext → SecretMap
  | .buildTest => p.buildTest
  | .buildRelease => p.buildRelease
  | .test => p.test
  | .validate => p.validate

/-- `self._processed_secrets[context][secret_var] = name` for one context. -/
def applyToContext (p : ProcessedSecrets) (ctx : WorkflowContext)
    (var name : String) : ProcessedSecrets :=
  match ctx with
  | .buildTest => { p with buildTest := dictSet p.buildTest var name }
  | .buildRelease => { p with buildRelease := dictSet p.buildRelease var name }
  | .test => { p with test := dictSet p.test var name }
  | .validate => { p with validate := dictSet p.validate var name }

/-- Processing of one `secrets` entry: a bare string is assigned into every
context, a dict form only into its listed contexts. -/
def applySecretSpec (p : ProcessedSecrets) (var : String) :
    SecretSpec → ProcessedSecrets
  | .str s => WORKFLOW_CONTEXTS.foldl (fun q ctx => applyToContext q ctx var s) p
  | .dict d => d.contexts.foldl (fun q ctx => applyToContext q ctx var d.secret) p

/-- The four base context maps of `process_secrets_and_permissions`, built by
folding the declared secrets in order over initially empty maps. -/
def processedBase (c : GenerateConfig) : ProcessedSecrets :=
  c.secrets.foldl (fun p entry => applySecretSpec p entry.1 entry.2) ⟨[], [], [], []⟩

/-- The union fold that the source computes with repeated `dict.update`,
iterating the contexts in dict order `build:test`, `build:release`, `test`,
`validate`. -/
def all_secrets_base (p : ProcessedSecrets) : SecretMap :=
  dictUpdate (dictUpdate (dictUpdate (dictUpdate [] p.buildTest) p.buildRelease) p.test) p.validate

/-- The synthetic `all` context of `process_secrets_and_permissions`: the
union of the base contexts, plus the fixed AWS / Google Cloud / private
entries, with every pair whose value is the literal `GITHUB_TOKEN` filtered
out at the end. -/
def allSecretsOf (c : GenerateConfig) : SecretMap :=
  let base := all_secrets_base (processedBase c)
  let withAws :=
    if c.aws.isSome then
      dictSet (dictSet base "AWS_ROLE" "AWS_ROLE")
        "AWS_ROLE_SESSION_NAME" "AWS_ROLE_SESSION_NAME"
    else base
  let withGcloud :=
    if c.gcloud then
      dictSet (dictSet withAws "GCLOUD_SERVICE_ACCOUNT" "GCLOUD_SERVICE_ACCOUNT")
        "GCLOUD_WORKLOAD_IDENTITY_PROVIDER" "GCLOUD_WORKLOAD_IDENTITY_PROVIDER"
    else withAws
  let withPrivate :=
    if c.private_ then
      dictSet withGcloud "COLUMNAR_CLOUD_API_TOKEN" "COLUMNAR_CLOUD_API_TOKEN"
    else withGcloud
  withPrivate.filter (fun kv => kv.2 != "GITHUB_TOKEN")

/-- `self._processed_secrets` after the model validator: the four base
contexts in declaration order followed by the synthetic `all` context. -/
def processedSecretsOf (c : GenerateConfig) : List (String × SecretMap) :=
  [("build:test", (processedBase c).buildTest),
   ("build:release", (processedBase c).buildRelease),
   ("test", (processedBase c).test),
   ("validate", (processedBase c).validate),
   ("all", allSecretsOf c)]

/-- `self._permissions`: `id_token` is set to `True` iff `aws` or `gcloud`
is configured; the map starts out empty. -/
def permissionsOf (c : GenerateConfig) : List (String × Bool) :=
  if c.aws.isSome || c.gcloud then [("id_token", true)] else []

/-! ### Lemmas about the dict primitives -/

theorem dictGet_dictSet_self (m : SecretMap) (k v : String) :
    dictGet (dictSet m k v) k = some v := by
  induction m with
  | nil => simp [dictSet, dictGet]
  | cons hd tl ih =>
    obtain ⟨k0, v0⟩ := hd
    by_cases h : k0 = k
    · simp [dictSet, dictGet, h]
    · simpa [dictSet, dictGet, h] using ih

theorem dictGet_dictSet_ne (m : SecretMap) (k v k2 : String) (h : k2 ≠ k) :
    dictGet (dictSet m k v) k2 = dictGet m k2 := by
  have hk : ¬k = k2 := fun he => h he.symm
  induction m with
  | nil => simp [dictSet, dictGet, hk]
  | cons hd tl ih =>
    obtain ⟨k0, v0⟩ := hd
    by_cases h1 : k0 = k
    · simp [dictSet, dictGet, h1, hk]
    · simp [dictSet, dictGet, h1, ih]

theorem dictGet_eq_none_of_not_mem (m : SecretMap) (k : String)
    (h : k ∉ keysOf m) : dictGet m k = none := by
  induction m with
  | nil => rfl
  | cons hd tl ih =>
    obtain ⟨k0, v0⟩ := hd
    simp only [keysOf, List.map_cons, List.mem_cons, not_or] at h
    rw [dictGet, if_neg (fun he => h.1 he.symm)]
    exact ih h.2

theorem mem_keysOf_dictSet (m : SecretMap) (k v a : String) :
    a ∈ keysOf (dictSet m k v) ↔ a ∈ keysOf m ∨ a = k := by
  induction m with
  | nil => simp [dictSet, keysOf]
  | cons hd tl ih =>
    obtain ⟨k0, v0⟩ := hd
    by_cases h : k0 = k
    · rw [dictSet, if_pos h]
      simp only [keysOf, List.map_cons, List.mem_cons, h]
      tauto
    · rw [dictSet, if_neg h]
      simp only [keysOf, List.map_cons, List.mem_cons]
      rw [show List.map Prod.fst (dictSet tl k v) = keysOf (dictSet tl k v) from rfl, ih]
      tauto

theorem nodup_keysOf_dictSet (m : SecretMap) (k v : String)
    (h : (keysOf m).Nodup) : (keysOf (dictSet m k v)).Nodup := by
  induction m with
  | nil => simp [dictSet, keysOf]
  | cons hd tl ih =>
    obtain ⟨k0, v0⟩ := hd
    simp only [keysOf, List.map_cons, List.nodup_cons] at h
    by_cases h1 : k0 = k
    · rw [dictSet, if_pos h1]
      simp only [keysOf, List.map_cons, List.nodup_cons]
      exact ⟨h1 ▸ h.1, h.2⟩
    · rw [dictSet, if_neg h1]
      simp only [keysOf, List.map_cons, List.nodup_cons]
      refine ⟨fun hmem => ?_, ih h.2⟩
      rcases (mem_keysOf_dictSet tl k v k0).mp hmem with hm | he
      · exact h.1 hm
      · exact h1 he

theorem dictGet_dictUpdate (m m2 : SecretMap) (k : String)
    (h : (keysOf m2).Nodup) :
    dictGet (dictUpdate m m2) k = (dictGet m2 k <|> dictGet m k) := by
  induction m2 generalizing m with
  | nil => simp [dictUpdate, dictGet]
  | cons hd tl ih =>
    obtain ⟨k0, v0⟩ := hd
    simp only [keysOf, List.map_cons, List.nodup_cons] at h
    have step : dictUpdate m ((k0, v0) :: tl) = dictUpdate (dictSet m k0 v0) tl := rfl
    rw [step, ih _ h.2]
    by_cases hk : k0 = k
    · subst hk
      have hnone : dictGet tl k0 = none :=
        dictGet_eq_none_of_not_mem tl k0 h.1
      simp [dictGet, hnone, dictGet_dictSet_self]
    · rw [dictGet_dictSet_ne m k0 v0 k (fun he => hk he.symm)]
      rw [show dictGet ((k0, v0) :: tl) k = dictGet tl k from by rw [dictGet, if_neg hk]]

theorem dictGet_filter_ne (m : SecretMap) (k v bad : String)
    (h : dictGet m k = some v) (hv : v ≠ bad) :
    dictGet (m.filter (fun kv => kv.2 != bad)) k = some v := by
  induction m with
  | nil => simp [dictGet] at h
  | cons hd tl ih =>
    obtain ⟨k0, v0⟩ := hd
    by_cases h1 : k0 = k
    · rw [dictGet, if_pos h1] at h
      have hv0 : v0 = v := Option.some.inj h
      subst hv0
      rw [List.filter_cons]
      simp only [bne_iff_ne, ne_eq, hv, not_false_iff, if_true]
      rw [dictGet, if_pos h1]
    · rw [dictGet, if_neg h1] at h
      rw [List.filter_cons]
      by_cases h2 : (v0 != bad) = true
      · rw [if_pos h2, dictGet, if_neg h1]
        exact ih h
      · rw [if_neg h2]
        exact ih h

/-! ### Fold invariants over the secrets processing -/

theorem foldl_preserve_mem {α β : Type} (P : α → Prop) (f : α → β → α) :
    ∀ (l : List β) (a : α), (∀ x ∈ l, ∀ b, P b → P (f b x)) → P a → P (l.foldl f a)
  | [], _, _, ha => ha
  | x :: xs, a, hstep, ha =>
    foldl_preserve_mem P f xs (f a x)
      (fun y hy => hstep y (List.mem_cons_of_mem x hy))
      (hstep x (List.mem_cons_self x xs) a ha)

theorem getCtx_applyToContext (p : ProcessedSecrets) (ctx ctx2 : WorkflowContext)
    (var name : String) :
    getCtx (applyToContext p ctx2 var name) ctx =
      if ctx = ctx2 then dictSet (getCtx p ctx) var name else getCtx p ctx := by
  cases ctx <;> cases ctx2 <;> simp [applyToContext, getCtx]

theorem dictGet_applySecretSpec_ne (p : ProcessedSecrets) (var : String)
    (spec : SecretSpec) (k : String) (hk : k ≠ var) (ctx : WorkflowContext) :
    dictGet (getCtx (applySecretSpec p var spec) ctx) k =
      dictGet (getCtx p ctx) k := by
  have general :
      ∀ (name : String) (l : List WorkflowContext) (q : ProcessedSecrets),
        dictGet (getCtx (l.foldl (fun r c2 => applyToContext r c2 var name) q) ctx) k =
          dictGet (getCtx q ctx) k := by
    intro name l
    induction l with
    | nil => intro q; rfl
    | cons c2 cs ih =>
      intro q
      rw [List.foldl_cons, ih]
      rw [getCtx_applyToContext]
      by_cases h : ctx = c2
      · rw [if_pos h, dictGet_dictSet_ne _ _ _ _ hk]
      · rw [if_neg h]
  cases spec with
  | str s => exact general s WORKFLOW_CONTEXTS p
  | dict d => exact general d.secret d.contexts p

theorem dictGet_applySecretSpec_str_self (p : ProcessedSecrets) (var s : String)
    (ctx : WorkflowContext) :
    dictGet (getCtx (applySecretSpec p var (.str s)) ctx) var = some s := by
  cases ctx <;>
    simp [applySecretSpec, WORKFLOW_CONTEXTS, applyToContext, getCtx,
      dictGet_dictSet_self, dictGet_dictSet_ne]

theorem processedBase_str_lookup (c : GenerateConfig) (name v : String)
    (hnd : (c.secrets.map Prod.fst).Nodup)
    (hmem : (name, SecretSpec.str v) ∈ c.secrets) (ctx : WorkflowContext) :
    dictGet (getCtx (processedBase c) ctx) name = some v := by
  obtain ⟨l1, l2, hsplit⟩ := List.append_of_mem hmem
  have hnotin : name ∉ l2.map Prod.fst := by
    rw [hsplit] at hnd
    simp only [List.map_append, List.map_cons] at hnd
    have := (List.nodup_append.mp hnd).2.1
    exact (List.nodup_cons.mp this).1
  rw [processedBase, hsplit, List.foldl_append, List.foldl_cons]
  set mid := applySecretSpec
      (l1.foldl (fun p entry => applySecretSpec p entry.1 entry.2) ⟨[], [], [], []⟩)
      name (SecretSpec.str v) with hmid
  have hbase : ∀ ctx2, dictGet (getCtx mid ctx2) name = some v := by
    intro ctx2
    rw [hmid]
    exact dictGet_applySecretSpec_str_self _ name v ctx2
  refine foldl_preserve_mem
    (fun p => ∀ ctx2, dictGet (getCtx p ctx2) name = some v)
    (fun p entry => applySecretSpec p entry.1 entry.2) l2 mid ?_ hbase ctx
  intro entry hentry q hq ctx2
  have hne : name ≠ entry.1 := by
    intro he
    exact hnotin (he ▸ List.mem_map_of_mem Prod.fst hentry)
  rw [dictGet_applySecretSpec_ne q entry.1 entry.2 name hne ctx2]
  exact hq ctx2

theorem nodup_keysOf_processedBase (c : GenerateConfig) (ctx : WorkflowContext) :
    (keysOf (getCtx (processedBase c) ctx)).Nodup := by
  have general :
      ∀ (var name : String) (l : List WorkflowContext) (q : ProcessedSecrets),
        (∀ ctx2, (keysOf (getCtx q ctx2)).Nodup) →
        ∀ ctx2, (keysOf (getCtx (l.foldl (fun r c2 => applyToContext r c2 var name) q) ctx2)).Nodup := by
    intro var name l
    induction l with
    | nil => intro q hq; exact hq
    | cons c2 cs ih =>
      intro q hq
      rw [List.foldl_cons]
      refine ih _ ?_
      intro ctx2
      rw [getCtx_applyToContext]
      by_cases h : ctx2 = c2
      · rw [if_pos h]; exact nodup_keysOf_dictSet _ _ _ (hq ctx2)
      · rw [if_neg h]; exact hq ctx2
  refine foldl_preserve_mem
    (fun p => ∀ ctx2, (keysOf (getCtx p ctx2)).Nodup)
    (fun p entry => applySecretSpec p entry.1 entry.2) c.secrets ⟨[], [], [], []⟩ ?_
    (by intro ctx2; cases ctx2 <;> simp [getCtx, keysOf]) ctx
  intro entry _ q hq
  cases hspec : entry.2 with
  | str s =>
    intro ctx2
    have := general entry.1 s WORKFLOW_CONTEXTS q hq ctx2
    simpa [applySecretSpec, hspec] using this
  | dict d =>
    intro ctx2
    have := general entry.1 d.secret d.contexts q hq ctx2
    simpa [applySecretSpec, hspec] using this

theorem processedBase_not_declared (c : GenerateConfig) (k : String)
    (h : k ∉ c.secrets.map Prod.fst) (ctx : WorkflowContext) :
    dictGet (getCtx (processedBase c) ctx) k = none := by
  refine foldl_preserve_mem (fun p => ∀ ctx2, dictGet (getCtx p ctx2) k = none)
    (fun p entry => applySecretSpec p entry.1 entry.2) c.secrets ⟨[], [], [], []⟩ ?_
    (by intro ctx2; cases ctx2 <;> rfl) ctx
  intro entry hentry q hq ctx2
  have hne : k ≠ entry.1 := fun he => h (he ▸ List.mem_map_of_mem Prod.fst hentry)
  rw [dictGet_applySecretSpec_ne q entry.1 entry.2 k hne ctx2]
  exact hq ctx2

theorem dictGet_allSecretsOf_not_synth (c : GenerateConfig) (k : String)
    (h1 : k ≠ "AWS_ROLE") (h2 : k ≠ "AWS_ROLE_SESSION_NAME")
    (h3 : k ≠ "GCLOUD_SERVICE_ACCOUNT") (h4 : k ≠ "GCLOUD_WORKLOAD_IDENTITY_PROVIDER")
    (h5 : k ≠ "COLUMNAR_CLOUD_API_TOKEN") (v : String) (hv : v ≠ "GITHUB_TOKEN")
    (h0 : dictGet (all_secrets_base (processedBase c)) k = some v) :
    dictGet (allSecretsOf c) k = some v := by
  simp only [allSecretsOf]
  apply dictGet_filter_ne _ _ _ _ ?_ hv
  by_cases hp : c.private_ <;> by_cases hg : c.gcloud <;> by_cases ha : c.aws.isSome <;>
    simp only [hp, hg, ha, if_true, if_false, ite_true, ite_false,
      Bool.false_eq_true, dictGet_dictSet_ne _ _ _ _ h1, dictGet_dictSet_ne _ _ _ _ h2,
      dictGet_dictSet_ne _ _ _ _ h3, dictGet_dictSet_ne _ _ _ _ h4,
      dictGet_dictSet_ne _ _ _ _ h5] <;> exact h0

/-! ### C1: bare-string secrets land in every context -/

/-- A configuration declaring a bare-string secret whose value is the literal
`GITHUB_TOKEN`. -/
def c1Cex : GenerateConfig := { secrets := [("X", SecretSpec.str "GITHUB_TOKEN")] }

/-- C1 counterexample: the bare-string secret `X = "GITHUB_TOKEN"` is present
in the `build:test` base context but absent from the synthetic `all` context,
so it does not appear in all five contexts with the same value as the claim
states. -/
theorem c1_counterexample :
    dictGet (processedBase c1Cex).buildTest "X" = some "GITHUB_TOKEN" ∧
    dictGet (allSecretsOf c1Cex) "X" = none ∧
    dictGet (allSecretsOf c1Cex) "X" ≠ some "GITHUB_TOKEN" :=
  ⟨rfl, rfl, by decide⟩

/-- A configuration declaring an ordinary bare-string secret. -/
def c1Example : GenerateConfig := { secrets := [("FOO", SecretSpec.str "BAR")] }

/-- C1 (amended): a bare-string secrets entry appears with its declared value
in each of the four base contexts `build:test`, `build:release`, `test`,
`validate` and in the synthetic `all` context, provided the value is not the
literal `GITHUB_TOKEN` (which the projection strips from `all`) and the
variable name is not one of the synthetic cloud/token names that an enabled
`aws`/`gcloud`/`private` toggle would overwrite in `all`. -/
theorem c1_bare_string_secret_all_contexts (c : GenerateConfig) (name v : String)
    (hnd : (c.secrets.map Prod.fst).Nodup)
    (hmem : (name, SecretSpec.str v) ∈ c.secrets)
    (hv : v ≠ "GITHUB_TOKEN")
    (hsynth : name ∉ ["AWS_ROLE", "AWS_ROLE_SESSION_NAME", "GCLOUD_SERVICE_ACCOUNT",
      "GCLOUD_WORKLOAD_IDENTITY_PROVIDER", "COLUMNAR_CLOUD_API_TOKEN"]) :
    dictGet (processedBase c).buildTest name = some v ∧
    dictGet (processedBase c).buildRelease name = some v ∧
    dictGet (processedBase c).test name = some v ∧
    dictGet (processedBase c).validate name = some v ∧
    dictGet (allSecretsOf c) name = some v := by
  simp only [List.mem_cons, List.not_mem_nil, or_false, not_or] at hsynth
  obtain ⟨h1, h2, h3, h4, h5⟩ := hsynth
  refine ⟨processedBase_str_lookup c name v hnd hmem .buildTest,
    processedBase_str_lookup c name v hnd hmem .buildRelease,
    processedBase_str_lookup c name v hnd hmem .test,
    processedBase_str_lookup c name v hnd hmem .validate, ?_⟩
  apply dictGet_allSecretsOf_not_synth c name h1 h2 h3 h4 h5 v hv
  rw [all_secrets_base, dictGet_dictUpdate _ _ _
    (show (keysOf (processedBase c).validate).Nodup from
      nodup_keysOf_processedBase c .validate)]
  rw [show dictGet (processedBase c).validate name = some v from
    processedBase_str_lookup c name v hnd hmem .validate]
  rfl

/-- C1 witness: the amended theorem applied to a concrete configuration. -/
theorem c1_witness :
    dictGet (processedBase c1Example).buildTest "FOO" = some "BAR" ∧
    dictGet (processedBase c1Example).buildRelease "FOO" = some "BAR" ∧
    dictGet (processedBase c1Example).test "FOO" = some "BAR" ∧
    dictGet (processedBase c1Example).validate "FOO" = some "BAR" ∧
    dictGet (allSecretsOf c1Example) "FOO" = some "BAR" :=
  c1_bare_string_secret_all_contexts c1Example "FOO" "BAR"
    (by decide) (by decide) (by decide) (by decide)

/-! ### C2: `GITHUB_TOKEN` never appears as a value in `all` -/

/-- C2: no entry of the synthetic `all` context has the literal value
`GITHUB_TOKEN`, for every validated configuration, whatever context or
shorthand declared it, because the projection filters such values out as its
final step. -/
theorem c2_github_token_never_in_all (c : GenerateConfig) (k v : String)
    (h : (k, v) ∈ allSecretsOf c) : v ≠ "GITHUB_TOKEN" := by
  simp only [allSecretsOf] at h
  have := List.of_mem_filter h
  simpa using this

/-- A configuration with one ordinary secret, used to witness C2. -/
def c2Example : GenerateConfig := { secrets := [("FOO", SecretSpec.str "BAR")] }

/-- C2 witness: a concrete entry of a concrete `all` context, with the
conclusion discharged by the theorem. -/
theorem c2_witness :
    ("FOO", "BAR") ∈ allSecretsOf c2Example ∧ ("BAR" : String) ≠ "GITHUB_TOKEN" :=
  ⟨by decide, c2_github_token_never_in_all c2Example "FOO" "BAR" (by decide)⟩

/-! ### C3: the fold into `all` is last-write-wins, not first-write-wins -/

/-- Context maps in which the same variable carries different values in
`build:test` and `build:release`. -/
def c3Fold : ProcessedSecrets := ⟨[("X", "a")], [("X", "b")], [], []⟩

/-- C3 counterexample: folding context maps in which `X` was first written as
`"a"` (in `build:test`) and later as `"b"` (in `build:release`) yields `"b"`:
the later context overrides the earlier one, so the fold does not keep the
first-written value. -/
theorem c3_counterexample :
    dictGet (all_secrets_base c3Fold) "X" = some "b" ∧
    dictGet (all_secrets_base c3Fold) "X" ≠ some "a" :=
  ⟨rfl, by decide⟩

/-- C3 (amended): the fold that builds `all` has `dict.update` semantics: the
value for a key is taken from the last context map that contains it, in the
iteration order `build:test`, `build:release`, `test`, `validate` (lookup
priority is thus the reverse order); only the key position keeps the first
write.  In a validated configuration each variable is declared at most once
and so carries the same value in every context, making the override
unobservable there. -/
theorem c3_fold_last_context_wins (p : ProcessedSecrets) (k : String)
    (h1 : (keysOf p.buildTest).Nodup) (h2 : (keysOf p.buildRelease).Nodup)
    (h3 : (keysOf p.test).Nodup) (h4 : (keysOf p.validate).Nodup) :
    dictGet (all_secrets_base p) k =
      (dictGet p.validate k <|> (dictGet p.test k <|>
        (dictGet p.buildRelease k <|> dictGet p.buildTest k))) := by
  rw [all_secrets_base, dictGet_dictUpdate _ _ _ h4, dictGet_dictUpdate _ _ _ h3,
    dictGet_dictUpdate _ _ _ h2, dictGet_dictUpdate _ _ _ h1]
  cases dictGet p.validate k <;> cases dictGet p.test k <;>
    cases dictGet p.buildRelease k <;> cases dictGet p.buildTest k <;> rfl

/-- C3 witness: the amended theorem applied to the concrete context maps. -/
theorem c3_witness :
    dictGet (all_secrets_base c3Fold) "X" =
      (dictGet c3Fold.validate "X" <|> (dictGet c3Fold.test "X" <|>
        (dictGet c3Fold.buildRelease "X" <|> dictGet c3Fold.buildTest "X"))) :=
  c3_fold_last_context_wins c3Fold "X" (by decide) (by decide) (by decide) (by decide)

/-! ### C4: `private` adds the Columnar Cloud token to `all` only -/

/-- C4: when `private` is set, the validated configuration's `all` context
contains the fixed `COLUMNAR_CLOUD_API_TOKEN` entry, and the synthetic entry
is added to no base context: if the variable is not itself declared in
`secrets`, every base context is free of it. -/
theorem c4_private_adds_columnar_token (c : GenerateConfig)
    (hp : c.private_ = true) :
    dictGet (allSecretsOf c) "COLUMNAR_CLOUD_API_TOKEN" =
      some "COLUMNAR_CLOUD_API_TOKEN" ∧
    ("COLUMNAR_CLOUD_API_TOKEN" ∉ c.secrets.map Prod.fst →
      dictGet (processedBase c).buildTest "COLUMNAR_CLOUD_API_TOKEN" = none ∧
      dictGet (processedBase c).buildRelease "COLUMNAR_CLOUD_API_TOKEN" = none ∧
      dictGet (processedBase c).test "COLUMNAR_CLOUD_API_TOKEN" = none ∧
      dictGet (processedBase c).validate "COLUMNAR_CLOUD_API_TOKEN" = none) := by
  constructor
  · simp only [allSecretsOf]
    apply dictGet_filter_ne _ _ _ _ ?_ (by decide)
    simp only [hp, if_true, eq_self_iff_true, ite_true]
    exact dictGet_dictSet_self _ _ _
  · intro hdecl
    exact ⟨processedBase_not_declared c _ hdecl .buildTest,
      processedBase_not_declared c _ hdecl .buildRelease,
      processedBase_not_declared c _ hdecl .test,
      processedBase_not_declared c _ hdecl .validate⟩

/-- A private configuration with no declared secrets. -/
def c4Example : GenerateConfig := { private_ := true }

/-- C4 witness: the theorem applied to a concrete private configuration. -/
theorem c4_witness :
    dictGet (allSecretsOf c4Example) "COLUMNAR_CLOUD_API_TOKEN" =
      some "COLUMNAR_CLOUD_API_TOKEN" ∧
    dictGet (processedBase c4Example).buildTest "COLUMNAR_CLOUD_API_TOKEN" = none :=
  ⟨(c4_private_adds_columnar_token c4Example rfl).1,
    ((c4_private_adds_columnar_token c4Example rfl).2 (by decide)).1⟩

/-! ### The `lang` field validation chain of `generate.py` -/

/-- Python truthiness of a TOML value, as used by `value = value or ...`. -/
def valueTruthy : Value → Bool
  | .str s => !(s == "")
  | .bool b => b
  | .int n => !(n == 0)
  | .dict fields => !fields.isEmpty
  | .list items => !items.isEmpty
  | .null => false

/-- Validation of a list-of-strings field of `LangBuildConfig`. -/
def parseStringItems : List Value → Except String (List String)
  | [] => .ok []
  | .str s :: rest =>
    match parseStringItems rest with
    | .ok l => .ok (s :: l)
    | .error e => .error e
  | _ :: _ => .error "expected a string"

/-- A `list[str]` pydantic field: the value must be a list of strings. -/
def parseStringList : Value → Except String (List String)
  | .list items => parseStringItems items
  | _ => .error "expected a list of strings"

/-- Field-by-field validation of `LangBuildConfig`: the two known fields are
accepted under their name or alias, anything else is rejected
(`extra = "forbid"`). -/
def validateLangBuildFields : List (String × Value) → LangBuildConfig →
    Except String LangBuildConfig
  | [], acc => .ok acc
  | (k, v) :: rest, acc =>
    if k = "additional-make-args" ∨ k = "additional_make_args" then
      match parseStringList v with
      | .ok l => validateLangBuildFields rest { acc with additional_make_args := l }
      | .error e => .error e
    else if k = "lang-tools" ∨ k = "lang_tools" then
      match parseStringList v with
      | .ok l => validateLangBuildFields rest { acc with lang_tools := l }
      | .error e => .error e
    else .error ("unknown key in build config: " ++ k)

/-- `LangBuildConfig.model_validate`: the value must be a table. -/
def validateLangBuildConfig : Value → Except String LangBuildConfig
  | .dict fields => validateLangBuildFields fields {}
  | _ => .error "build config must be a table"

/-- Field-by-field validation of `LangConfig` (`extra = "forbid"`, the
`skip_validate` field accepts its alias `skip-validate`). -/
def validateLangConfigFields : List (String × Value) → LangConfig →
    Except String LangConfig
  | [], acc => .ok acc
  | (k, v) :: rest, acc =>
    if k = "build" then
      match validateLangBuildConfig v with
      | .ok b => validateLangConfigFields rest { acc with build := b }
      | .error e => .error e
    else if k = "skip-validate" ∨ k = "skip_validate" then
      match v with
      | .bool b => validateLangConfigFields rest { acc with skip_validate := b }
      | _ => .error "skip-validate must be a boolean"
    else .error ("unknown key in lang config: " ++ k)

/-- `LangConfig.model_validate`, including its `true_is_enabled` before
validator: a boolean value is replaced by an empty table, which validates to
the default config. -/
def validateLangConfig : Value → Except String LangConfig
  | .bool _ => .ok {}
  | .dict fields => validateLangConfigFields fields {}
  | _ => .error "lang config must be a table or boolean"

/-- Validation of one `lang` entry.  The `lang_boolean` before validator of
`GenerateConfig` maps `True` to a default `LangConfig()` and `False` to
`None`; other values are validated against the field type
`LangConfig | None`. -/
def validateLangEntry : Value → Except String (Option LangConfig)
  | .bool true => .ok (some {})
  | .bool false => .ok none
  | .null => .ok none
  | v =>
    match validateLangConfig v with
    | .ok lc => .ok (some lc)
    | .error e => .error e

/-- Validation of all entries of the `lang` mapping, in insertion order. -/
def validateLangEntries : List (String × Value) →
    Except String (List (String × Option LangConfig))
  | [] => .ok []
  | (k, v) :: rest =>
    match validateLangEntry v, validateLangEntries rest with
    | .ok lc, .ok r => .ok ((k, lc) :: r)
    | .error e, _ => .error e
    | .ok _, .error e => .error e

/-- The full `lang` field validation: `lang_boolean` first replaces a falsy
value by an empty mapping (`value = value or` an empty dict), a truthy
non-mapping is a validation failure, and each entry of a mapping is validated
by `validateLangEntry`. -/
def validateLangField (v : Value) : Except String (List (String × Option LangConfig)) :=
  if valueTruthy v then
    match v with
    | .dict fields => validateLangEntries fields
    | _ => .error "lang must be a mapping"
  else .ok []

/-! ### C5: a `false` lang entry is kept as disabled, not excluded -/

/-- C5 counterexample: `lang = dict with go = false` validates to a map that
still contains the `go` key (with a disabled `none` value), whereas omitting
the `lang` entry entirely yields the empty map, so the two effective maps
differ. -/
theorem c5_counterexample :
    validateLangField (.dict [("go", Value.bool false)]) = .ok [("go", none)] ∧
    validateLangField (.dict [("go", Value.bool false)]) ≠
      validateLangField (.dict []) ∧
    validateLangField (.dict []) = .ok [] := by
  refine ⟨rfl, ?_, rfl⟩
  intro h
  rw [show validateLangField (.dict [("go", Value.bool false)]) = .ok [("go", none)] from rfl,
    show validateLangField (.dict []) = .ok [] from rfl] at h
  injection h with h2
  exact absurd h2 (by decide)

/-- C5 (amended): a `lang` entry set to `false` validates to an entry that
remains in the effective language map, carrying the disabled value `none`
rather than being excluded (validation never drops a key), while a `lang`
entry given as an object is accepted and validated as a `LangConfig`. -/
theorem c5_lang_false_kept_as_disabled :
    (∀ (entries : List (String × Value)) (m : List (String × Option LangConfig)),
      validateLangEntries entries = .ok m →
        m.map Prod.fst = entries.map Prod.fst) ∧
    validateLangField (.dict [("go", Value.bool false)]) = .ok [("go", none)] ∧
    validateLangField
        (.dict [("rust", Value.dict [("skip-validate", Value.bool true)])]) =
      .ok [("rust", some { skip_validate := true })] := by
  refine ⟨?_, rfl, rfl⟩
  intro entries
  induction entries with
  | nil =>
    intro m h
    injection h with h2
    rw [← h2]
    rfl
  | cons hd rest ih =>
    intro m h
    obtain ⟨k, v⟩ := hd
    rw [validateLangEntries] at h
    cases he : validateLangEntry v with
    | error e => rw [he] at h; exact absurd h (by simp)
    | ok lc =>
      rw [he] at h
      cases hr : validateLangEntries rest with
      | error e => rw [hr] at h; exact absurd h (by simp)
      | ok r =>
        rw [hr] at h
        injection h with h2
        rw [← h2]
        simp only [List.map_cons]
        rw [ih r hr]

/-- C5 witness: the general no-key-dropped conclusion at a concrete input. -/
theorem c5_witness :
    validateLangEntries [("go", Value.bool false)] = .ok [("go", none)] ∧
    List.map Prod.fst [("go", (none : Option LangConfig))] =
      List.map Prod.fst [("go", Value.bool false)] :=
  ⟨rfl, c5_lang_false_kept_as_disabled.1 [("go", Value.bool false)] [("go", none)] rfl⟩

/-! ### `detect_version` from `make.py` -/

/-- The observations `detect_version` makes of the file system and of git
through subprocess calls, bundled as an explicit repository state so that the
function becomes pure.  `tags` is the line list printed by
`git tag -l --sort -v:refname <prefix>*`, i.e. already filtered to the
driver's tag prefix and sorted newest first. -/
structure RepoState where
  hasBuildManifest : Bool
  inGitRepository : Bool
  relPath : String
  tags : List String
  revListCount : String → Nat
  shortHead : String
  statusLines : List String

/-- The failure conditions of `detect_version`, one per `raise` site. -/
inductive VersionError where
  | noBuildManifest
  | notInGitRepository
  | noTagsFound
  | notOnTag
  | dirtyTree
  deriving DecidableEq, Repr

/-- Python `str.startswith`, computably over the character lists. -/
def strStartsWith (s pre : String) : Bool := pre.toList.isPrefixOf s.toList

/-- `detect_version` from `make.py`: precondition checks, tag-prefix
computation, version derivation from the newest matching tag with a
`-dev.<count>.<hash>` suffix when commits follow the tag, and a final
`-dirty` suffix when `git status --porcelain` reports any line that is not an
untracked-file line. -/
def detect_version (st : RepoState) (strict : Bool) : Except VersionError String :=
  if st.hasBuildManifest = false then .error .noBuildManifest
  else if st.inGitRepository = false then .error .notInGitRepository
  else
    let vpref := if st.relPath = "." then "v" else st.relPath ++ "/v"
    let step1 : Except VersionError String :=
      match st.tags with
      | [] => if strict then .error .noTagsFound else .ok "unknown"
      | tag :: _ =>
        let version := tag.drop (vpref.length - 1)
        let count := st.revListCount tag
        if count > 0 then
          if strict then .error .notOnTag
          else .ok (version ++ "-dev." ++ toString count ++ "." ++ st.shortHead)
        else .ok version
    match step1 with
    | .error e => .error e
    | .ok version =>
      if st.statusLines.any (fun line => !strStartsWith line "?? ") then
        if strict then .error .dirtyTree else .ok (version ++ "-dirty")
      else .ok version

/-! ### C6: version resolution with no matching tags -/

/-- A repository state with no matching tags and one tracked modification. -/
def c6CexState : RepoState :=
  { hasBuildManifest := true, inGitRepository := true, relPath := ".",
    tags := [], revListCount := fun _ => 0, shortHead := "abc1234",
    statusLines := [" M go.mod"] }

/-- C6 counterexample: with no matching tags but a dirty working tree,
non-strict resolution returns `"unknown-dirty"`, not exactly `"unknown"` as
the claim states. -/
theorem c6_counterexample :
    detect_version c6CexState false = .ok "unknown-dirty" ∧
    detect_version c6CexState false ≠ .ok "unknown" := by
  refine ⟨rfl, ?_⟩
  intro h
  rw [show detect_version c6CexState false = .ok "unknown-dirty" from rfl] at h
  injection h with h2
  exact absurd h2 (by decide)

/-- C6 (amended): when no tag matches the driver's version prefix, strict
resolution fails with `NoTagsFound` (before the dirty check), and non-strict
resolution returns `"unknown"` when the tree has no tracked modification and
`"unknown-dirty"` otherwise. -/
theorem c6_no_tags (st : RepoState) (h1 : st.hasBuildManifest = true)
    (h2 : st.inGitRepository = true) (h3 : st.tags = []) :
    detect_version st true = .error .noTagsFound ∧
    detect_version st false =
      .ok (if st.statusLines.any (fun line => !strStartsWith line "?? ")
        then "unknown-dirty" else "unknown") := by
  constructor
  · simp [detect_version, h1, h2, h3]
  · cases hdirty : st.statusLines.any (fun line => !strStartsWith line "?? ") with
    | true => simp [detect_version, h1, h2, h3, hdirty]
    | false => simp [detect_version, h1, h2, h3, hdirty]

/-- A clean repository state with no matching tags. -/
def c6CleanState : RepoState :=
  { hasBuildManifest := true, inGitRepository := true, relPath := ".",
    tags := [], revListCount := fun _ => 0, shortHead := "abc1234",
    statusLines := ["?? scratch.txt"] }

/-- C6 witness: the amended theorem at a concrete state whose only status
line is an untracked file, which the dirty check ignores. -/
theorem c6_witness :
    detect_version c6CleanState true = .error .noTagsFound ∧
    detect_version c6CleanState false =
      .ok (if c6CleanState.statusLines.any (fun line => !strStartsWith line "?? ")
        then "unknown-dirty" else "unknown") :=
  c6_no_tags c6CleanState rfl rfl rfl

/-! ### C7: version resolution on and after a tag -/

/-- The claimed scenario at the tag: repository-root driver, tags `v1.0.0`
and `v1.1.0` (newest first as git prints them), `HEAD` exactly on the newest
tag, clean tree. -/
def c7StateA : RepoState :=
  { hasBuildManifest := true, inGitRepository := true, relPath := ".",
    tags := ["v1.1.0", "v1.0.0"], revListCount := fun _ => 0,
    shortHead := "abc1234", statusLines := [] }

/-- The same repository three commits after the tag with one uncommitted
tracked modification, with the given short hash at `HEAD`. -/
def c7StateB (h : String) : RepoState :=
  { hasBuildManifest := true, inGitRepository := true, relPath := ".",
    tags := ["v1.1.0", "v1.0.0"], revListCount := fun _ => 3,
    shortHead := h, statusLines := [" M pkg/main.go"] }

/-- C7: at the tag with a clean tree, non-strict resolution returns
`"v1.1.0"` verbatim; three commits past the tag with a tracked modification,
non-strict resolution returns `"v1.1.0-dev.3.<shorthash>-dirty"` and strict
resolution fails with `NotOnTag`. -/
theorem c7_tagged_release_version (h : String) :
    detect_version c7StateA false = .ok "v1.1.0" ∧
    detect_version (c7StateB h) false = .ok ("v1.1.0-dev.3." ++ h ++ "-dirty") ∧
    detect_version (c7StateB h) true = .error .notOnTag := by
  refine ⟨rfl, ?_, rfl⟩
  have e : detect_version (c7StateB h) false =
      .ok ("v1.1.0".drop 0 ++ "-dev." ++ toString (3 : Nat) ++ "." ++ h ++ "-dirty") := rfl
  rw [e, show ("v1.1.0".drop 0 ++ "-dev." ++ toString (3 : Nat) ++ "." : String) =
    "v1.1.0-dev.3." from rfl]

/-- C7 witness: the theorem at a concrete short hash. -/
theorem c7_witness :
    detect_version (c7StateB "abc1234") false = .ok "v1.1.0-dev.3.abc1234-dirty" := by
  rw [show ("v1.1.0-dev.3.abc1234-dirty" : String) =
    "v1.1.0-dev.3." ++ "abc1234" ++ "-dirty" from rfl]
  exact (c7_tagged_release_version "abc1234").2.1

/-! ### `normalize_driver_name` from `package.py` -/

/-- The characters of a string up to (excluding) the first `.`, i.e. the
first component of Python `filename.partition(".")`. -/
def takeUntilDot : List Char → List Char
  | [] => []
  | c :: rest => if c = '.' then [] else c :: takeUntilDot rest

/-- `filename.partition(".")[0]`: everything before the first dot, or the
whole string when there is no dot. -/
def partitionBeforeDot (filename : String) : String := ⟨takeUntilDot filename.toList⟩

/-- Python `str.removeprefix("lib")`: drop the prefix only when present. -/
def removePrefixLib (name : String) : String :=
  if strStartsWith name "lib" then ⟨name.toList.drop 3⟩ else name

/-- Python `str.split(sep)` over a character list: split on every separator
occurrence, keeping empty components. -/
def splitOnChar (sep : Char) : List Char → List (List Char)
  | [] => [[]]
  | c :: rest =>
    if c = sep then [] :: splitOnChar sep rest
    else
      match splitOnChar sep rest with
      | [] => [[c]]
      | g :: gs => (c :: g) :: gs

/-- The components `name.split("_")` of the extension-stripped,
`lib`-stripped driver file name. -/
def driverNameParts (filename : String) : List String :=
  (splitOnChar '_' (removePrefixLib (partitionBeforeDot filename)).toList).map
    (fun chars => (⟨chars⟩ : String))

/-- `normalize_driver_name` from `package.py`: take the name before the first
dot, strip a leading `lib`, split on `_`, require exactly the components
`adbc`, `driver`, `<name>` and return `<name>`; every other shape raises
`ValueError`. -/
def normalize_driver_name (filename : String) : Except String String :=
  let name := removePrefixLib (partitionBeforeDot filename)
  let parts := driverNameParts filename
  if parts.length ≠ 3 then .error ("Invalid driver name: " ++ name)
  else if parts.getD 0 "" ≠ "adbc" then .error ("Invalid driver name: " ++ name)
  else if parts.getD 1 "" ≠ "driver" then .error ("Invalid driver name: " ++ name)
  else .ok (parts.getD 2 "")

/-- C8: the four naming examples behave as specified, and in general
`normalize_driver_name` succeeds with `d` exactly when the stripped name
splits on `_` into exactly three components `adbc`, `driver`, `d`. -/
theorem c8_normalize_driver_name_contract :
    normalize_driver_name "libadbc_driver_redshift.so" = .ok "redshift" ∧
    normalize_driver_name "libadbc_driver_foo-bar.dll" = .ok "foo-bar" ∧
    normalize_driver_name "libcolumnar_driver_foo.so" =
      .error "Invalid driver name: columnar_driver_foo" ∧
    normalize_driver_name "adbc-driver-foo.dll" =
      .error "Invalid driver name: adbc-driver-foo" ∧
    ∀ (f d : String), normalize_driver_name f = .ok d ↔
      ((driverNameParts f).length = 3 ∧ (driverNameParts f).getD 0 "" = "adbc" ∧
        (driverNameParts f).getD 1 "" = "driver" ∧ (driverNameParts f).getD 2 "" = d) := by
  refine ⟨rfl, rfl, rfl, rfl, ?_⟩
  intro f d
  simp only [normalize_driver_name]
  split_ifs with h1 h2 h3
  · constructor
    · intro h; exact h.elim
    · rintro ⟨hl, -⟩; exact absurd hl h1
  · constructor
    · intro h; exact h.elim
    · rintro ⟨-, ha, -⟩; exact absurd ha h2
  · constructor
    · intro h; exact h.elim
    · rintro ⟨-, -, hb, -⟩; exact absurd hb h3
  · constructor
    · intro h; exact ⟨not_not.mp h1, not_not.mp h2, not_not.mp h3, Except.ok.inj h⟩
    · rintro ⟨-, -, -, hd⟩; rw [hd]

/-- C8 witness: the general characterization applied at a concrete file
name. -/
theorem c8_witness :
    normalize_driver_name "libadbc_driver_redshift.so" = .ok "redshift" ↔
      ((driverNameParts "libadbc_driver_redshift.so").length = 3 ∧
        (driverNameParts "libadbc_driver_redshift.so").getD 0 "" = "adbc" ∧
        (driverNameParts "libadbc_driver_redshift.so").getD 1 "" = "driver" ∧
        (driverNameParts "libadbc_driver_redshift.so").getD 2 "" = "redshift") :=
  c8_normalize_driver_name_contract.2.2.2.2 "libadbc_driver_redshift.so" "redshift"

/-! ### The legacy `Params` validator of `workflow.py` -/

/-- Python `d[k] = v` for a `dict[str, Any]`. -/
def vdictSet : List (String × Value) → String → Value → List (String × Value)
  | [], k, v => [(k, v)]
  | (k0, v0) :: rest, k, v =>
    if k0 = k then (k, v) :: rest else (k0, v0) :: vdictSet rest k v

/-- Python `d.update(d2)` for `dict[str, Any]`. -/
def vdictUpdate (m m2 : List (String × Value)) : List (String × Value) :=
  m2.foldl (fun acc kv => vdictSet acc kv.1 kv.2) m

/-- Python `raw.pop(key, ...)`: the value at the key, if present, together
with the mapping without that entry. -/
def popKey (k : String) : List (String × Value) → Option Value × List (String × Value)
  | [] => (none, [])
  | (k0, v) :: rest =>
    if k0 = k then (some v, rest)
    else
      let r := popKey k rest
      (r.1, (k0, v) :: r.2)

/-- `_require_bool` from `workflow.py`. -/
def require_bool : Value → Except String Bool
  | .bool b => .ok b
  | _ => .error "Expected bool"

/-- Python `str.strip()`: whitespace removed from both ends. -/
def pyStrip (s : String) : String :=
  ⟨((s.toList.dropWhile Char.isWhitespace).reverse.dropWhile Char.isWhitespace).reverse⟩

/-- `_require_str_optional_nonempty` from `workflow.py`. -/
def require_str_optional_nonempty : Value → Except String (Option String)
  | .null => .ok none
  | .str s => if pyStrip s = "" then .error "Expected non-empty string" else .ok (some s)
  | _ => .error "Expected str"

/-- The `lang` loop of `Params.__init__`: every entry must be a boolean and
is kept, whether true or false. -/
def parseParamsLang : List (String × Value) → Except String (List (String × Bool))
  | [] => .ok []
  | (k, v) :: rest =>
    match require_bool v with
    | .error e => .error e
    | .ok b =>
      match parseParamsLang rest with
      | .error e => .error e
      | .ok l => .ok ((k, b) :: l)

/-- The three base context maps that `Params.__init__` initializes
(`build:release`, `test`, `validate` — there is no `build:test` here). -/
structure ParamsContexts where
  buildRelease : List (String × Value)
  test : List (String × Value)
  validate : List (String × Value)

/-- `self.secrets[scope][secret] = name`: an unknown scope is a `KeyError`
because only the three context keys exist in the dict. -/
def applyParamsScope (acc : ParamsContexts) (secretName : String) (name : Value)
    (scope : String) : Except String ParamsContexts :=
  if scope = "build:release" then
    .ok { acc with buildRelease := vdictSet acc.buildRelease secretName name }
  else if scope = "test" then
    .ok { acc with test := vdictSet acc.test secretName name }
  else if scope = "validate" then
    .ok { acc with validate := vdictSet acc.validate secretName name }
  else .error ("KeyError: " ++ scope)

/-- Iteration over the declared scopes of a dict-form secret. -/
def applyParamsScopes (acc : ParamsContexts) (secretName : String) (name : Value) :
    List Value → Except String ParamsContexts
  | [] => .ok acc
  | .str scope :: rest =>
    match applyParamsScope acc secretName name scope with
    | .error e => .error e
    | .ok acc2 => applyParamsScopes acc2 secretName name rest
  | _ :: _ => .error "KeyError: non-string context"

/-- The iterable that `secret_value.pop("contexts", self.secrets.keys())`
produces: the default is the three context keys, an explicit list is used as
is, and a string iterates its characters (Python string iteration). -/
def scopesOfValue : Option Value → Except String (List Value)
  | none => .ok [.str "build:release", .str "test", .str "validate"]
  | some (.list items) => .ok items
  | some (.str s) => .ok (s.toList.map (fun c => Value.str ⟨[c]⟩))
  | some _ => .error "TypeError: contexts is not iterable"

/-- The secrets loop of `Params.__init__`: a bare string is assigned into all
three contexts, a mapping must carry a `secret` key and is assigned into its
scopes, leftover keys are rejected, and any other value type is a
`TypeError`. -/
def processParamsSecrets : List (String × Value) → ParamsContexts →
    Except String ParamsContexts
  | [], acc => .ok acc
  | (secretName, .str s) :: rest, acc =>
    processParamsSecrets rest
      { acc with
        buildRelease := vdictSet acc.buildRelease secretName (.str s),
        test := vdictSet acc.test secretName (.str s),
        validate := vdictSet acc.validate secretName (.str s) }
  | (secretName, .dict fields) :: rest, acc =>
    match popKey "secret" fields with
    | (none, _) => .error "KeyError: secret"
    | (some name, fields1) =>
      let popped := popKey "contexts" fields1
      match scopesOfValue popped.1 with
      | .error e => .error e
      | .ok scopes =>
        match applyParamsScopes acc secretName name scopes with
        | .error e => .error e
        | .ok acc2 =>
          if popped.2.isEmpty then processParamsSecrets rest acc2
          else .error ("Unknown keys in secrets: " ++ secretName)
  | (_, _) :: _, _ => .error "Secret must be a string or mapping"

/-- The permissions computed at the end of `Params.__init__`. -/
def paramsPermissions (awsPresent gcloud : Bool) : List (String × Bool) :=
  if awsPresent || gcloud then [("id_token", true)] else []

/-- The validated `Params` object of `workflow.py` (its `__init__` result).
`driver` is whatever value the raw mapping carried, untouched. -/
structure Params where
  driver : Value
  environment : Option String
  private_ : Bool
  lang : List (String × Bool)
  buildRelease : List (String × Value)
  test : List (String × Value)
  validate : List (String × Value)
  allSecrets : List (String × Value)
  permissions : List (String × Bool)
  aws : List (String × Value)
  gcloud : Bool
  extra_dependencies : Value

/-- All fields of `Params` except `driver`, which is popped first and never
inspected afterwards. -/
structure ParamsCore where
  environment : Option String
  private_ : Bool
  lang : List (String × Bool)
  buildRelease : List (String × Value)
  test : List (String × Value)
  validate : List (String × Value)
  allSecrets : List (String × Value)
  permissions : List (String × Bool)
  aws : List (String × Value)
  gcloud : Bool
  extra_dependencies : Value

/-- Reassembling a `Params` from the popped driver value and the rest. -/
def paramsOfCore (driver : Value) (core : ParamsCore) : Params :=
  { driver := driver, environment := core.environment, private_ := core.private_,
    lang := core.lang, buildRelease := core.buildRelease, test := core.test,
    validate := core.validate, allSecrets := core.allSecrets,
    permissions := core.permissions, aws := core.aws, gcloud := core.gcloud,
    extra_dependencies := core.extra_dependencies }

/-- `Params.__init__` after the `driver` pop, mirroring `workflow.py` line by
line: environment and private validation, the lang loop, the secrets loop and
the `all` union, the aws block (truthiness test, `region` pop, unknown-key
check, `AWS_ROLE` synthetics), gcloud and its synthetics, the permissions
assignment, the validation block, and the final unknown-parameter check. -/
def Params.ofRawCore (raw0 : List (String × Value)) : Except String ParamsCore :=
  let pEnv := popKey "environment" raw0
  match require_str_optional_nonempty (pEnv.1.getD .null) with
  | .error e => .error e
  | .ok environment =>
  let pPriv := popKey "private" pEnv.2
  match require_bool (pPriv.1.getD (.bool false)) with
  | .error e => .error e
  | .ok private_ =>
  let pLang := popKey "lang" pPriv.2
  match ((match pLang.1.getD (.dict []) with
         | .dict fields => parseParamsLang fields
         | _ => .error "lang must be a mapping") :
        Except String (List (String × Bool))) with
  | .error e => .error e
  | .ok lang =>
  let pSecrets := popKey "secrets" pLang.2
  match ((match pSecrets.1.getD (.dict []) with
         | .dict fields => processParamsSecrets fields ⟨[], [], []⟩
         | _ => .error "secrets must be a mapping") :
        Except String ParamsContexts) with
  | .error e => .error e
  | .ok ctxs =>
  let allSecrets0 :=
    vdictUpdate (vdictUpdate (vdictUpdate [] ctxs.buildRelease) ctxs.test) ctxs.validate
  let pAws := popKey "aws" pSecrets.2
  let awsVal := pAws.1.getD (.dict [])
  match ((if valueTruthy awsVal then
           match awsVal with
           | .dict fields =>
             match popKey "region" fields with
             | (none, _) => .error "KeyError: region"
             | (some region, fields1) =>
               if fields1.isEmpty then .ok [("region", region)]
               else .error "Unknown keys in aws"
           | _ => .error "aws must be a mapping"
         else .ok []) : Except String (List (String × Value))) with
  | .error e => .error e
  | .ok awsCfg =>
  let allSecrets1 :=
    if awsCfg.isEmpty then allSecrets0
    else vdictSet (vdictSet allSecrets0 "AWS_ROLE" (.str "AWS_ROLE"))
      "AWS_ROLE_SESSION_NAME" (.str "AWS_ROLE_SESSION_NAME")
  let pGcloud := popKey "gcloud" pAws.2
  match require_bool (pGcloud.1.getD (.bool false)) with
  | .error e => .error e
  | .ok gcloud =>
  let allSecrets2 :=
    if gcloud then
      vdictSet (vdictSet allSecrets1 "GCLOUD_SERVICE_ACCOUNT" (.str "GCLOUD_SERVICE_ACCOUNT"))
        "GCLOUD_WORKLOAD_IDENTITY_PROVIDER" (.str "GCLOUD_WORKLOAD_IDENTITY_PROVIDER")
    else allSecrets1
  let pValidation := popKey "validation" pGcloud.2
  let validationVal := pValidation.1.getD (.dict [])
  match ((if valueTruthy validationVal then
           match validationVal with
           | .dict fields =>
             let pExtra := popKey "extra-dependencies" fields
             let extraVal := pExtra.1.getD (.dict [])
             let extraDeps := if valueTruthy extraVal then extraVal else Value.dict []
             if pExtra.2.isEmpty then .ok extraDeps
             else .error "Unknown validation parameters"
           | _ => .error "validation must be a mapping"
         else .ok (Value.dict [])) : Except String Value) with
  | .error e => .error e
  | .ok extraDeps =>
  if pValidation.2.isEmpty then
    .ok { environment := environment, private_ := private_, lang := lang,
          buildRelease := ctxs.buildRelease, test := ctxs.test,
          validate := ctxs.validate, allSecrets := allSecrets2,
          permissions := paramsPermissions (!awsCfg.isEmpty) gcloud,
          aws := awsCfg, gcloud := gcloud, extra_dependencies := extraDeps }
  else .error "Unknown parameters"

/-- `Params(raw)`, i.e. `Params.__init__`: pop `driver` first, defaulting to
the string `(unknown)` with no type check, then validate the rest. -/
def Params.ofRaw (raw : List (String × Value)) : Except String Params :=
  match Params.ofRawCore (popKey "driver" raw).2 with
  | .error e => .error e
  | .ok core => .ok (paramsOfCore ((popKey "driver" raw).1.getD (.str "(unknown)")) core)

theorem popKey_not_mem (k : String) (l : List (String × Value))
    (h : k ∉ l.map Prod.fst) : popKey k l = (none, l) := by
  induction l with
  | nil => rfl
  | cons hd tl ih =>
    obtain ⟨k0, v⟩ := hd
    simp only [List.map_cons, List.mem_cons, not_or] at h
    rw [popKey, if_neg (fun he => h.1 he.symm), ih h.2]

theorem popKey_cons_self (k : String) (v : Value) (rest : List (String × Value)) :
    popKey k ((k, v) :: rest) = (some v, rest) := by
  rw [popKey, if_pos rfl]

theorem paramsPermissions_cases (a g : Bool) :
    paramsPermissions a g = [] ∨ paramsPermissions a g = [("id_token", true)] := by
  rw [paramsPermissions]
  split_ifs <;> simp

theorem validateCore_permissions (raw : List (String × Value)) (core : ParamsCore)
    (h : Params.ofRawCore raw = .ok core) :
    core.permissions = [] ∨ core.permissions = [("id_token", true)] := by
  simp only [Params.ofRawCore] at h
  repeat' split at h
  all_goals
    first
      | (injection h with h2; rw [← h2]; exact paramsPermissions_cases _ _)
      | injection h

/-! ### C9: the `driver` field defaults and is never type checked -/

/-- C9: validation of a raw mapping without a `driver` key succeeds whenever
the rest is valid and yields the driver string `(unknown)`; and prepending a
`driver` entry with an arbitrary value (of any type) to an otherwise valid
mapping still validates, storing that value unchanged — no type check is
applied. -/
theorem c9_driver_defaults_and_untyped :
    (∀ (raw : List (String × Value)) (p : Params),
      "driver" ∉ raw.map Prod.fst → Params.ofRaw raw = .ok p →
        p.driver = .str "(unknown)") ∧
    (∀ (rest : List (String × Value)) (p : Params) (v : Value),
      "driver" ∉ rest.map Prod.fst → Params.ofRaw rest = .ok p →
        Params.ofRaw (("driver", v) :: rest) = .ok { p with driver := v }) := by
  constructor
  · intro raw p hmem h
    simp only [Params.ofRaw, popKey_not_mem "driver" raw hmem] at h
    cases hc : Params.ofRawCore raw with
    | error e => rw [hc] at h; exact absurd h (by simp)
    | ok core => rw [hc] at h; injection h with h2; rw [← h2]; rfl
  · intro rest p v hmem h
    simp only [Params.ofRaw, popKey_not_mem "driver" rest hmem] at h
    simp only [Params.ofRaw, popKey_cons_self]
    cases hc : Params.ofRawCore rest with
    | error e => rw [hc] at h; exact absurd h (by simp)
    | ok core =>
      rw [hc] at h
      injection h with h2
      rw [← h2]
      rfl

/-- The result of validating `raw = [gcloud := true]` with `Params`. -/
def c9Params : Params :=
  { driver := .str "(unknown)", environment := none, private_ := false, lang := [],
    buildRelease := [], test := [], validate := [],
    allSecrets := [("GCLOUD_SERVICE_ACCOUNT", .str "GCLOUD_SERVICE_ACCOUNT"),
      ("GCLOUD_WORKLOAD_IDENTITY_PROVIDER", .str "GCLOUD_WORKLOAD_IDENTITY_PROVIDER")],
    permissions := [("id_token", true)], aws := [], gcloud := true,
    extra_dependencies := .dict [] }

/-- C9 witness: the theorem applied to a concrete raw mapping without a
`driver` key. -/
theorem c9_witness :
    Params.ofRaw [("gcloud", Value.bool true)] = .ok c9Params ∧
    c9Params.driver = .str "(unknown)" :=
  ⟨rfl, c9_driver_defaults_and_untyped.1 [("gcloud", Value.bool true)] c9Params
    (by decide) rfl⟩

/-! ### C10: permissions is empty or maps `id_token` to true -/

/-- C10: for every validated configuration — under the pydantic
`GenerateConfig` model and under the legacy `Params` validator alike — the
permissions mapping is either empty or exactly `id_token = true`; validation
never produces `id_token = false`. -/
theorem c10_permissions_id_token_only :
    (∀ c : GenerateConfig,
      permissionsOf c = [] ∨ permissionsOf c = [("id_token", true)]) ∧
    (∀ (raw : List (String × Value)) (p : Params),
      Params.ofRaw raw = .ok p →
        p.permissions = [] ∨ p.permissions = [("id_token", true)]) := by
  constructor
  · intro c
    rw [permissionsOf]
    split_ifs <;> simp
  · intro raw p h
    simp only [Params.ofRaw] at h
    cases hc : Params.ofRawCore (popKey "driver" raw).2 with
    | error e => rw [hc] at h; exact absurd h (by simp)
    | ok core =>
      rw [hc] at h
      injection h with h2
      rw [← h2]
      exact validateCore_permissions _ core hc

/-- The result of validating an aws-enabled raw mapping with `Params`. -/
def c10Params : Params :=
  { driver := .str "(unknown)", environment := none, private_ := false, lang := [],
    buildRelease := [], test := [], validate := [],
    allSecrets := [("AWS_ROLE", .str "AWS_ROLE"),
      ("AWS_ROLE_SESSION_NAME", .str "AWS_ROLE_SESSION_NAME")],
    permissions := [("id_token", true)],
    aws := [("region", .str "us-west-2")], gcloud := false,
    extra_dependencies := .dict [] }

/-- C10 witness: the theorem applied to a concrete aws-enabled raw mapping. -/
theorem c10_witness :
    Params.ofRaw [("aws", Value.dict [("region", Value.str "us-west-2")])] =
      .ok c10Params ∧
    (c10Params.permissions = [] ∨ c10Params.permissions = [("id_token", true)]) :=
  ⟨rfl, c10_permissions_id_token_only.2
    [("aws", Value.dict [("region", Value.str "us-west-2")])] c10Params rfl⟩

end AdbcDriversDev
